import Mathlib

/-!
Verification of the blockchain core: block validation, proof-of-work mining,
and the account ledger.

The Go source is shallow-embedded below.  Machine integers (uint64, uint16)
are modelled as Nat with explicit reduction modulo 2^64 (respectively 2^16)
at every operation where the source performs machine arithmetic.  Hex-digest
strings are modelled as List Char.  Go string slicing s[:n], which panics
when n exceeds the length, is modelled as an Option; a none result stands
for a run-time panic.  The external canonical-hash primitive is a parameter
of every definition that consumes it, and mutable map state is explicit
state passing over an association list keyed by account identifier.
-/

namespace Blockchain

/-- 2^64, the modulus of Go uint64 arithmetic. -/
def two64 : Nat := 2 ^ 64

/-- Go uint64 addition. -/
def add64 (a b : Nat) : Nat := (a + b) % two64

/-- Go uint64 subtraction (wrapping), for operands below 2^64. -/
def sub64 (a b : Nat) : Nat := (a + two64 - b) % two64

/-- Go uint64 multiplication. -/
def mul64 (a b : Nat) : Nat := (a * b) % two64

/-- Reinterpretation of a uint64 value as int64, as in Go int64(x). -/
def toInt64 (n : Nat) : Int := if n < 2 ^ 63 then (n : Int) else (n : Int) - (two64 : Int)

/-- Modelled from the spec: the account package is not under src/.  An account
holds an identifier (opaque, orderable; modelled as Nat), an unsigned 64-bit
balance and an unsigned 64-bit nonce. -/
structure Account where
  AccountID : Nat
  Balance : Nat
  Nonce : Nat
deriving DecidableEq

/-- Modelled from the spec: the transaction package is not under src/.  Only
the fields consumed by this core are modelled. -/
structure BlockTx where
  FromID : Nat
  ToID : Nat
  Nonce : Nat
  Value : Nat
  Tip : Nat
  GasPrice : Nat
  GasUnits : Nat
deriving DecidableEq

/-- BlockHeader from block.go; hex strings are List Char, integers Nat. -/
structure BlockHeader where
  Number : Nat
  PrevBlockHash : List Char
  TimeStamp : Nat
  BeneficiaryID : Nat
  Difficulty : Nat
  MiningReward : Nat
  StateRoot : List Char
  TransRoot : List Char
  Nonce : Nat
deriving DecidableEq

/-- Block from block.go.  The merkle tree is modelled by its ordered list of
transaction leaves (the merkle package is not under src/; the spec describes
it as a commitment over an ordered transaction list). -/
structure Block where
  Header : BlockHeader
  MerkleTree : List BlockTx
deriving DecidableEq

/-- Modelled from the spec: signature.ZeroHash is not under src/; a fixed
sentinel of the canonical 66-character format, 0x followed by 64 zeros. -/
def zeroHash : List Char := '0' :: 'x' :: List.replicate 64 '0'

/-- Block.Hash from block.go: the zero-hash sentinel for the genesis block,
otherwise the canonical hash of the header.  The canonical hash function
signature.Hash is not under src/ and is passed as the parameter H. -/
def Block.Hash (H : BlockHeader → List Char) (b : Block) : List Char :=
  if b.Header.Number = 0 then zeroHash else H b.Header

/-- The distinct error outcomes of Block.ValidateBlock, in source order. -/
inductive ValidateErr where
  | chainForked
  | difficultyRegression
  | wrongNumber
  | parentHashMismatch
  | timestampOrder
deriving DecidableEq

/-- Block.ValidateBlock from block.go.  The stateRoot argument is received
exactly as in the source, which never reads it.  Timestamps are compared as
in the source: converted to int64 seconds and ordered by time.Before. -/
def ValidateBlock (H : BlockHeader → List Char) (b previousBlock : Block)
    (stateRoot : List Char) : Option ValidateErr :=
  let nextNumber := add64 previousBlock.Header.Number 1
  if add64 nextNumber 2 ≤ b.Header.Number then some ValidateErr.chainForked
  else if b.Header.Difficulty < previousBlock.Header.Difficulty then
    some ValidateErr.difficultyRegression
  else if b.Header.Number ≠ nextNumber then some ValidateErr.wrongNumber
  else if b.Header.PrevBlockHash ≠ Block.Hash H previousBlock then
    some ValidateErr.parentHashMismatch
  else if 0 < previousBlock.Header.TimeStamp ∧
      toInt64 b.Header.TimeStamp < toInt64 previousBlock.Header.TimeStamp then
    some ValidateErr.timestampOrder
  else none

/-- The constant the mining hash prefix is compared against in isHashSolved:
0x followed by seventeen zeros, 19 characters in all. -/
def powMatch : List Char := '0' :: 'x' :: List.replicate 17 '0'

/-- Go string slicing s[:n]: defined when n is at most the length, a
run-time panic (modelled as none) otherwise. -/
def goTake (s : List Char) (n : Nat) : Option (List Char) :=
  if n ≤ s.length then some (s.take n) else none

/-- isHashSolved from the proof package.  The difficulty is a uint16, so the
source increment difficulty += 2 wraps modulo 2^16.  A none result models
the panic raised by an out-of-range slice. -/
def isHashSolved (difficulty : Nat) (hash : List Char) : Option Bool :=
  if hash.length ≠ 66 then some false
  else
    match goTake hash ((difficulty + 2) % 65536), goTake powMatch ((difficulty + 2) % 65536) with
    | some a, some c => some (decide (a = c))
    | _, _ => none

/-- Outcomes of the mining search: success, context cancellation, or a
run-time panic inside the difficulty test. -/
inductive MineErr where
  | cancelled
  | panicked
  | emptyTransactions
deriving DecidableEq

/-- performPOW from the proof package.  The block parameter is received BY
VALUE, exactly as in the source (func performPOW(ctx, b block.Block)): the
nonce search mutates only this local copy, so a successful search returns
only unit to the caller.  The random starting nonce is the parameter nonce;
fuel counts the iterations until the context cancellation fires (the Go
loop is unbounded and checks ctx.Err() at the top of every iteration). -/
def performPOW (H : BlockHeader → List Char) (b : Block) : Nat → Nat → Except MineErr Unit
  | _, 0 => Except.error MineErr.cancelled
  | nonce, fuel + 1 =>
    match isHashSolved b.Header.Difficulty
        (Block.Hash H { b with Header := { b.Header with Nonce := nonce % two64 } }) with
    | none => Except.error MineErr.panicked
    | some true => Except.ok ()
    | some false => performPOW H b (nonce + 1) fuel

/-- POWArgs from the proof package. -/
structure POWArgs where
  BeneficiaryID : Nat
  Difficulty : Nat
  MiningReward : Nat
  PrevBlock : Block
  StateRoot : List Char
  Trans : List BlockTx
deriving DecidableEq

/-- POW from the proof package.  HT models merkle tree root computation
(tree.RootHex); per the spec the tree build fails on an empty transaction
list.  now models time.Now, startNonce the random starting nonce.  As in
the source, the block handed to performPOW is returned unchanged when the
search reports success. -/
def POW (H : BlockHeader → List Char) (HT : List BlockTx → List Char)
    (args : POWArgs) (now startNonce fuel : Nat) : Except MineErr Block :=
  let prevBlockHash :=
    if 0 < args.PrevBlock.Header.Number then Block.Hash H args.PrevBlock else zeroHash
  if args.Trans.isEmpty then Except.error MineErr.emptyTransactions
  else
    let b : Block :=
      { Header :=
          { Number := add64 args.PrevBlock.Header.Number 1
            PrevBlockHash := prevBlockHash
            TimeStamp := now
            BeneficiaryID := args.BeneficiaryID
            Difficulty := args.Difficulty
            MiningReward := args.MiningReward
            StateRoot := args.StateRoot
            TransRoot := HT args.Trans
            Nonce := 0 }
        MerkleTree := args.Trans }
    match performPOW H b startNonce fuel with
    | Except.ok _ => Except.ok b
    | Except.error e => Except.error e

/-- acc.New: a fresh account with the given identifier and balance. -/
def accNew (id balance : Nat) : Account :=
  { AccountID := id, Balance := balance, Nonce := 0 }

/-- Lookup in the accounts map, modelled as an association list keyed by the
account identifier stored in each Account. -/
def findAccount : List Account → Nat → Option Account
  | [], _ => none
  | a :: rest, id => if a.AccountID = id then some a else findAccount rest id

/-- Map assignment db.accounts[id] = v: replace the entry with key id, or
append a new entry when absent. -/
def storeAccount : List Account → Nat → Account → List Account
  | [], _, v => [v]
  | a :: rest, id, v =>
    if a.AccountID = id then v :: rest else a :: storeAccount rest id v

/-- Map read with the comma-ok idiom followed by acc.New(id, 0) on a miss,
as at the top of Database.ApplyTransaction. -/
def getAccount (accounts : List Account) (id : Nat) : Account :=
  (findAccount accounts id).getD (accNew id 0)

/-- The two business errors Database.ApplyTransaction can return. -/
inductive TxError where
  | nonceMismatch
  | insufficientFunds
deriving DecidableEq

/-- Database.ApplyTransaction from the database package, with the mutable
accounts map as explicit state.  Every arithmetic step is uint64.  The gas
fee is clamped to the sender balance, debited and persisted together with
the beneficiary credit before the nonce and funds checks; on the success
path value and tip are transferred and all three accounts written back in
source order (from, to, beneficiary). -/
def ApplyTransaction (accounts : List Account) (b : Block) (tx : BlockTx) :
    List Account × Option TxError :=
  let bid := b.Header.BeneficiaryID
  let frm := getAccount accounts tx.FromID
  let toAcc := getAccount accounts tx.ToID
  let bnfc := getAccount accounts bid
  let gasFee := min (mul64 tx.GasPrice tx.GasUnits) frm.Balance
  let frm1 := { frm with Balance := sub64 frm.Balance gasFee }
  let bnfc1 := { bnfc with Balance := add64 bnfc.Balance gasFee }
  let acc2 := storeAccount (storeAccount accounts tx.FromID frm1) bid bnfc1
  if tx.Nonce ≠ add64 frm1.Nonce 1 then (acc2, some TxError.nonceMismatch)
  else if frm1.Balance = 0 ∨ frm1.Balance < add64 tx.Value tx.Tip then
    (acc2, some TxError.insufficientFunds)
  else
    let frm2 := { frm1 with
                  Balance := sub64 (sub64 frm1.Balance tx.Value) tx.Tip
                  Nonce := tx.Nonce }
    let to2 := { toAcc with Balance := add64 toAcc.Balance tx.Value }
    let bnfc2 := { bnfc1 with Balance := add64 bnfc1.Balance tx.Tip }
    (storeAccount (storeAccount (storeAccount acc2 tx.FromID frm2) tx.ToID to2) bid bnfc2,
     none)

/-- Total balance held in the ledger. -/
def sumBalances (accounts : List Account) : Nat :=
  (accounts.map Account.Balance).sum

/-- Modelled from the spec: acc.ByAccount is not under src/; the spec says
accounts are sorted deterministically by a total order over account
identifiers. -/
def accountLE (x y : Account) : Prop := x.AccountID ≤ y.AccountID

instance : DecidableRel accountLE :=
  fun x y => inferInstanceAs (Decidable (x.AccountID ≤ y.AccountID))

instance : IsTotal Account accountLE :=
  ⟨fun x y => Nat.le_total x.AccountID y.AccountID⟩

instance : IsTrans Account accountLE :=
  ⟨fun _ _ _ h1 h2 => Nat.le_trans h1 h2⟩

/-- sort.Sort(acc.ByAccount(accounts)): sort by account identifier. -/
def sortAccounts (accounts : List Account) : List Account :=
  List.insertionSort accountLE accounts

/-- Database.HashState: snapshot the accounts (the list order models the
arbitrary map iteration order), sort by account identifier, hash the sorted
sequence with the canonical hash HA (signature.Hash, not under src/). -/
def HashState (HA : List Account → List Char) (accounts : List Account) : List Char :=
  HA (sortAccounts accounts)

/-- A 66-character hash consisting solely of zero digits. -/
def allZeroHash : List Char := List.replicate 66 '0'

/-- A 66-character hash of the canonical format with one zero hex digit
after the 0x marker: solved at difficulty 1. -/
def wHash : List Char := '0' :: 'x' :: '0' :: List.replicate 63 'b'

/-- A 66-character hash solved at difficulty 1. -/
def c1Good : List Char := '0' :: 'x' :: '0' :: List.replicate 63 'a'

/-- A 66-character hash unsolved at difficulty 1. -/
def c1Bad : List Char := '0' :: 'x' :: List.replicate 64 'a'

/-- A modelled canonical hash for which exactly the headers with nonce 5
produce a difficulty-1-solved digest. -/
def c1H : BlockHeader → List Char := fun h => if h.Nonce = 5 then c1Good else c1Bad

/-- Concrete mining arguments: genesis parent, difficulty 1, one transaction. -/
def c1Args : POWArgs :=
  { BeneficiaryID := 7, Difficulty := 1, MiningReward := 50,
    PrevBlock :=
      { Header := { Number := 0, PrevBlockHash := [], TimeStamp := 0, BeneficiaryID := 0,
                    Difficulty := 0, MiningReward := 0, StateRoot := [], TransRoot := [],
                    Nonce := 0 },
        MerkleTree := [] },
    StateRoot := [],
    Trans := [{ FromID := 1, ToID := 2, Nonce := 1, Value := 3, Tip := 0,
                GasPrice := 1, GasUnits := 1 }] }

/-- A parent block at height 5. -/
def c4prev : Block :=
  { Header := { Number := 5, PrevBlockHash := [], TimeStamp := 10, BeneficiaryID := 0,
                Difficulty := 1, MiningReward := 0, StateRoot := [], TransRoot := [],
                Nonce := 0 },
    MerkleTree := [] }

/-- A candidate block three positions ahead of c4prev. -/
def c4b : Block :=
  { Header := { Number := 8, PrevBlockHash := [], TimeStamp := 11, BeneficiaryID := 0,
                Difficulty := 1, MiningReward := 0, StateRoot := [], TransRoot := [],
                Nonce := 0 },
    MerkleTree := [] }

/-- Ledger with sender 1 (balance 100), receiver 2 and beneficiary 3. -/
def c6db : List Account :=
  [{ AccountID := 1, Balance := 100, Nonce := 0 },
   { AccountID := 2, Balance := 0, Nonce := 0 },
   { AccountID := 3, Balance := 0, Nonce := 0 }]

/-- A block whose beneficiary is account 3. -/
def c6blk : Block :=
  { Header := { Number := 1, PrevBlockHash := [], TimeStamp := 0, BeneficiaryID := 3,
                Difficulty := 0, MiningReward := 0, StateRoot := [], TransRoot := [],
                Nonce := 0 },
    MerkleTree := [] }

/-- The spec's worked transaction: nonce 1, value 30, tip 5, gas 1 times 2. -/
def c6tx : BlockTx :=
  { FromID := 1, ToID := 2, Nonce := 1, Value := 30, Tip := 5, GasPrice := 1, GasUnits := 2 }

/-- Ledger for the insufficient-funds example: sender 1 holds only 1. -/
def c7db : List Account :=
  [{ AccountID := 1, Balance := 1, Nonce := 0 },
   { AccountID := 2, Balance := 0, Nonce := 0 },
   { AccountID := 3, Balance := 0, Nonce := 0 }]

/-- A block whose beneficiary is account 3. -/
def c7blk : Block :=
  { Header := { Number := 1, PrevBlockHash := [], TimeStamp := 0, BeneficiaryID := 3,
                Difficulty := 0, MiningReward := 0, StateRoot := [], TransRoot := [],
                Nonce := 0 },
    MerkleTree := [] }

/-- Transaction of value 10 against a balance of 1: gas clamps to 1. -/
def c7tx : BlockTx :=
  { FromID := 1, ToID := 2, Nonce := 1, Value := 10, Tip := 0, GasPrice := 1, GasUnits := 2 }

/-- One-account ledger used for the aliasing scenarios. -/
def aliasDb : List Account := [{ AccountID := 1, Balance := 100, Nonce := 0 }]

/-- A block whose beneficiary is account 1, the same as the sender below. -/
def aliasBlk : Block :=
  { Header := { Number := 1, PrevBlockHash := [], TimeStamp := 0, BeneficiaryID := 1,
                Difficulty := 0, MiningReward := 0, StateRoot := [], TransRoot := [],
                Nonce := 0 },
    MerkleTree := [] }

/-- A valid transaction sent by account 1, the block beneficiary. -/
def aliasTx : BlockTx :=
  { FromID := 1, ToID := 2, Nonce := 1, Value := 10, Tip := 5, GasPrice := 1, GasUnits := 2 }

/-- A transaction by account 1 with a wrong nonce. -/
def alias7Tx : BlockTx :=
  { FromID := 1, ToID := 2, Nonce := 5, Value := 0, Tip := 0, GasPrice := 1, GasUnits := 2 }

/-- Ledger with pairwise-distinct sender, receiver and beneficiary. -/
def w10db : List Account :=
  [{ AccountID := 1, Balance := 50, Nonce := 0 },
   { AccountID := 2, Balance := 0, Nonce := 0 },
   { AccountID := 3, Balance := 0, Nonce := 0 }]

/-- A block whose beneficiary is account 3. -/
def w10blk : Block :=
  { Header := { Number := 1, PrevBlockHash := [], TimeStamp := 0, BeneficiaryID := 3,
                Difficulty := 0, MiningReward := 0, StateRoot := [], TransRoot := [],
                Nonce := 0 },
    MerkleTree := [] }

/-- A transaction preserving total balance among accounts 1, 2 and 3. -/
def w10tx : BlockTx :=
  { FromID := 1, ToID := 2, Nonce := 1, Value := 10, Tip := 5, GasPrice := 1, GasUnits := 2 }

/-- An order-sensitive concrete hash over account sequences, used to
exercise HashState. -/
def c8HA : List Account → List Char :=
  fun l => l.foldr (fun a r => Char.ofNat (48 + a.AccountID % 10) :: r) []

end Blockchain

namespace Blockchain

theorem powMatch_length : powMatch.length = 19 := by decide

theorem goTake_of_le {s : List Char} {n : Nat} (h : n ≤ s.length) :
    goTake s n = some (s.take n) := if_pos h

theorem goTake_of_gt {s : List Char} {n : Nat} (h : s.length < n) :
    goTake s n = none := if_neg (by omega)

theorem isHashSolved_of_len (d : Nat) (hash : List Char) (hlen : hash.length = 66) :
    isHashSolved d hash =
      (match goTake hash ((d + 2) % 65536), goTake powMatch ((d + 2) % 65536) with
       | some a, some c => some (decide (a = c))
       | _, _ => none) := by
  simp [isHashSolved, hlen]

/-- Claim C2: for difficulty d in [0,17], a hash of length other than 66 is
rejected as unsolved, and a 66-character hash is accepted as solved iff its
first d+2 characters equal the first d+2 characters of the match constant,
namely quote 0x unquote followed by d zero digits (NOT d+2 zero digits, as
the claim as frozen states; see the counterexample). -/
theorem isHashSolved_spec (d : Nat) (hash : List Char) (hd17 : d ≤ 17) :
    (hash.length ≠ 66 → isHashSolved d hash = some false) ∧
    (hash.length = 66 →
      (isHashSolved d hash = some true ↔
        hash.take (d + 2) = '0' :: 'x' :: List.replicate d '0')) := by
  refine ⟨fun h => by simp [isHashSolved, h], fun h => ?_⟩
  have hm : (d + 2) % 65536 = d + 2 := Nat.mod_eq_of_lt (by omega)
  have hp : powMatch.take (d + 2) = '0' :: 'x' :: List.replicate d '0' := by
    simp only [powMatch, List.take_succ_cons, List.take_replicate]
    rw [Nat.min_eq_left hd17]
  rw [isHashSolved_of_len d hash h, hm,
    goTake_of_le (s := hash) (by omega),
    goTake_of_le (s := powMatch) (by rw [powMatch_length]; omega)]
  simp [hp]

/-- Claim C2 counterexample: at difficulty 0 a 66-character hash whose first
0+2 characters are all zero digits is rejected, because the code compares
against the 0x prefix of the match constant, not against zero digits. -/
theorem isHashSolved_allzero_counterexample :
    allZeroHash.length = 66 ∧
    allZeroHash.take (0 + 2) = List.replicate (0 + 2) '0' ∧
    isHashSolved 0 allZeroHash = some false := by decide

theorem isHashSolved_spec_witness :
    isHashSolved 1 wHash = some true :=
  ((isHashSolved_spec 1 wHash (by decide)).2 (by decide)).mpr (by decide)

/-- Claim C3 (amended): the difficulty test is well-defined (never panics)
for every difficulty in [0,17]; hashes of length other than 66 are rejected
before any indexing at every difficulty; but with a 66-character hash every
difficulty d with 18 <= d <= 65533 slices the 19-character match constant
out of range, a run-time panic (none), instead of returning unsolved. -/
theorem isHashSolved_range_spec :
    (∀ (d : Nat) (hash : List Char), d ≤ 17 → (isHashSolved d hash).isSome = true) ∧
    (∀ (d : Nat) (hash : List Char), 18 ≤ d → d ≤ 65533 → hash.length = 66 →
      isHashSolved d hash = none) ∧
    (∀ (d : Nat) (hash : List Char), hash.length ≠ 66 → isHashSolved d hash = some false) := by
  refine ⟨fun d hash hd17 => ?_, fun d hash h18 h65 hlen => ?_,
    fun d hash h => by simp [isHashSolved, h]⟩
  · by_cases hlen : hash.length = 66
    · have hm : (d + 2) % 65536 = d + 2 := Nat.mod_eq_of_lt (by omega)
      rw [isHashSolved_of_len d hash hlen, hm,
        goTake_of_le (s := hash) (by omega),
        goTake_of_le (s := powMatch) (by rw [powMatch_length]; omega)]
      rfl
    · simp [isHashSolved, hlen]
  · have hm : (d + 2) % 65536 = d + 2 := Nat.mod_eq_of_lt (by omega)
    rw [isHashSolved_of_len d hash hlen, hm,
      goTake_of_gt (s := powMatch) (by rw [powMatch_length]; omega)]
    rcases goTake hash (d + 2) with _ | a <;> rfl

/-- Claim C3 counterexample: at difficulty 18 a 66-character hash makes the
difficulty test panic (slice out of range on the 19-character constant)
rather than return unsolved. -/
theorem isHashSolved_panic_counterexample :
    allZeroHash.length = 66 ∧ isHashSolved 18 allZeroHash = none := by decide

theorem isHashSolved_range_spec_witness :
    (isHashSolved 17 allZeroHash).isSome = true ∧ isHashSolved 18 allZeroHash = none :=
  ⟨isHashSolved_range_spec.1 17 allZeroHash (by decide),
   isHashSolved_range_spec.2.1 18 allZeroHash (by decide) (by decide) (by decide)⟩

/-- Claim C4: ValidateBlock checks, in order with first failure winning:
fork when Number is at least previous Number + 3; difficulty regression
when Difficulty decreases; wrong sequence number when Number differs from
previous Number + 1; parent hash mismatch against previous.Hash(); and a
timestamp-order error exactly when the parent timestamp is nonzero and this
block's timestamp is strictly earlier; otherwise success. -/
theorem validateBlock_order_spec (H : BlockHeader → List Char) (b prev : Block)
    (stateRoot : List Char)
    (hnum : prev.Header.Number + 3 < two64)
    (hts1 : prev.Header.TimeStamp < 2 ^ 63) (hts2 : b.Header.TimeStamp < 2 ^ 63) :
    ValidateBlock H b prev stateRoot =
      if prev.Header.Number + 3 ≤ b.Header.Number then some ValidateErr.chainForked
      else if b.Header.Difficulty < prev.Header.Difficulty then
        some ValidateErr.difficultyRegression
      else if b.Header.Number ≠ prev.Header.Number + 1 then some ValidateErr.wrongNumber
      else if b.Header.PrevBlockHash ≠ Block.Hash H prev then
        some ValidateErr.parentHashMismatch
      else if prev.Header.TimeStamp ≠ 0 ∧ b.Header.TimeStamp < prev.Header.TimeStamp then
        some ValidateErr.timestampOrder
      else none := by
  have e1 : add64 prev.Header.Number 1 = prev.Header.Number + 1 := by
    unfold add64
    exact Nat.mod_eq_of_lt (by omega)
  have e2 : add64 (prev.Header.Number + 1) 2 = prev.Header.Number + 3 := by
    unfold add64
    rw [Nat.mod_eq_of_lt (by omega)]
  have e3 : (toInt64 b.Header.TimeStamp < toInt64 prev.Header.TimeStamp) ↔
      (b.Header.TimeStamp < prev.Header.TimeStamp) := by
    unfold toInt64
    rw [if_pos hts2, if_pos hts1]
    exact Nat.cast_lt
  have e4 : (0 < prev.Header.TimeStamp) ↔ (prev.Header.TimeStamp ≠ 0) :=
    Nat.pos_iff_ne_zero
  simp only [ValidateBlock, e1, e2, e3, e4]

theorem validateBlock_order_spec_witness :
    ValidateBlock (fun _ => []) c4b c4prev [] = some ValidateErr.chainForked :=
  (validateBlock_order_spec (fun _ => []) c4b c4prev []
    (by decide) (by decide) (by decide)).trans (by decide)

/-- Claim C9: the result of ValidateBlock does not depend on its state-root
argument: any two state-root values give the same result, for every block,
parent and hash function. -/
theorem validateBlock_stateroot_independent (H : BlockHeader → List Char) (b prev : Block)
    (sr1 sr2 : List Char) :
    ValidateBlock H b prev sr1 = ValidateBlock H b prev sr2 := rfl

/-- Claim C5: Block.Hash returns the zero-hash sentinel whenever the header
number is 0, regardless of every other field and of the transaction
commitment; for a nonzero number it is the canonical hash of the header, a
pure function of the header fields only, so two blocks with identical
headers hash identically whatever their merkle trees hold. -/
theorem blockHash_spec :
    (∀ (H : BlockHeader → List Char) (hdr : BlockHeader) (mt : List BlockTx),
        hdr.Number = 0 → Block.Hash H { Header := hdr, MerkleTree := mt } = zeroHash) ∧
    (∀ (H : BlockHeader → List Char) (hdr : BlockHeader) (mt1 mt2 : List BlockTx),
        Block.Hash H { Header := hdr, MerkleTree := mt1 } =
          Block.Hash H { Header := hdr, MerkleTree := mt2 }) ∧
    (∀ (H : BlockHeader → List Char) (hdr : BlockHeader) (mt : List BlockTx),
        hdr.Number ≠ 0 → Block.Hash H { Header := hdr, MerkleTree := mt } = H hdr) := by
  refine ⟨fun H hdr mt h => by simp [Block.Hash, h], fun H hdr mt1 mt2 => rfl,
    fun H hdr mt h => by simp [Block.Hash, h]⟩

theorem blockHash_spec_witness :
    Block.Hash (fun _ => [])
        { Header := { Number := 0, PrevBlockHash := [], TimeStamp := 0, BeneficiaryID := 0,
                      Difficulty := 0, MiningReward := 0, StateRoot := [], TransRoot := [],
                      Nonce := 0 },
          MerkleTree := [] } = zeroHash :=
  blockHash_spec.1 (fun _ => []) _ [] rfl

/-- Claim C1 is violated by the code: performPOW receives the block by
value and discovers the nonce only on its local copy, so POW returns the
candidate block with nonce still 0.  Concretely, with a modelled hash under
which the search succeeds (only nonce 5 solves difficulty 1), POW returns
success, yet the returned block carries nonce 0 and its content hash fails
the difficulty test. -/
theorem pow_returns_block_with_unsolved_hash :
    (POW c1H (fun _ => c1Bad) c1Args 99 0 10).toOption.map
        (fun blk => (blk.Header.Nonce, isHashSolved blk.Header.Difficulty (Block.Hash c1H blk)))
      = some (0, some false) := by decide

end Blockchain

namespace Blockchain

theorem getAccount_accountID (m : List Account) (k : Nat) : (getAccount m k).AccountID = k := by
  induction m with
  | nil => rfl
  | cons a rest ih =>
    by_cases h : a.AccountID = k
    · simp [getAccount, findAccount, h]
    · simpa [getAccount, findAccount, h] using ih

theorem findAccount_storeAccount (m : List Account) (k : Nat) (v : Account)
    (hv : v.AccountID = k) (j : Nat) :
    findAccount (storeAccount m k v) j = if j = k then some v else findAccount m j := by
  induction m with
  | nil =>
    by_cases hj : j = k
    · simp [storeAccount, findAccount, hv, hj]
    · simp [storeAccount, findAccount, hv, hj, Ne.symm hj]
  | cons a rest ih =>
    by_cases ha : a.AccountID = k
    · by_cases hj : j = k
      · simp [storeAccount, findAccount, ha, hv, hj]
      · simp [storeAccount, findAccount, ha, hv, hj, Ne.symm hj]
    · by_cases haj : a.AccountID = j
      · have hjk : j ≠ k := fun hh => ha (haj.trans hh)
        simp [storeAccount, findAccount, ha, haj, hjk]
      · simp [storeAccount, findAccount, ha, haj, ih]

theorem getAccount_storeAccount (m : List Account) (k : Nat) (v : Account)
    (hv : v.AccountID = k) (j : Nat) :
    getAccount (storeAccount m k v) j = if j = k then v else getAccount m j := by
  unfold getAccount
  rw [findAccount_storeAccount m k v hv j]
  by_cases hj : j = k <;> simp [hj]

theorem sumBalances_storeAccount (m : List Account) (k : Nat) (v : Account) :
    sumBalances (storeAccount m k v) + (getAccount m k).Balance
      = sumBalances m + v.Balance := by
  induction m with
  | nil => simp [storeAccount, sumBalances, getAccount, findAccount, accNew]
  | cons a rest ih =>
    by_cases ha : a.AccountID = k
    · simp [storeAccount, sumBalances, getAccount, findAccount, ha]
      omega
    · simp [storeAccount, sumBalances, getAccount, findAccount, ha] at ih ⊢
      omega

theorem add64_of_lt {a b : Nat} (h : a + b < two64) : add64 a b = a + b :=
  Nat.mod_eq_of_lt h

theorem sub64_of_le {a b : Nat} (hb : b ≤ a) (ha : a < two64) : sub64 a b = a - b := by
  unfold sub64
  have hsplit : a + two64 - b = (a - b) + two64 := by omega
  rw [hsplit, Nat.add_mod_right, Nat.mod_eq_of_lt (by omega)]

/-- Claim C6 (amended with pairwise distinctness of sender, receiver and
beneficiary): every successful ApplyTransaction leaves the sender debited
by the clamped gas fee, the value and the tip (uint64 arithmetic), with its
nonce set to the transaction nonce; the receiver credited with the value;
and the beneficiary credited with the clamped fee plus the tip.  The spec's
concrete instance holds, including the nonce-mismatch on re-submission. -/
theorem applyTransaction_success_spec :
    (∀ (accounts : List Account) (b : Block) (tx : BlockTx),
      tx.FromID ≠ tx.ToID →
      tx.FromID ≠ b.Header.BeneficiaryID →
      tx.ToID ≠ b.Header.BeneficiaryID →
      (ApplyTransaction accounts b tx).2 = none →
      findAccount (ApplyTransaction accounts b tx).1 tx.FromID =
        some { AccountID := tx.FromID,
               Balance := sub64 (sub64 (sub64 (getAccount accounts tx.FromID).Balance
                   (min (mul64 tx.GasPrice tx.GasUnits)
                     (getAccount accounts tx.FromID).Balance)) tx.Value) tx.Tip,
               Nonce := tx.Nonce } ∧
      findAccount (ApplyTransaction accounts b tx).1 tx.ToID =
        some { AccountID := tx.ToID,
               Balance := add64 (getAccount accounts tx.ToID).Balance tx.Value,
               Nonce := (getAccount accounts tx.ToID).Nonce } ∧
      findAccount (ApplyTransaction accounts b tx).1 b.Header.BeneficiaryID =
        some { AccountID := b.Header.BeneficiaryID,
               Balance := add64 (add64 (getAccount accounts b.Header.BeneficiaryID).Balance
                   (min (mul64 tx.GasPrice tx.GasUnits)
                     (getAccount accounts tx.FromID).Balance)) tx.Tip,
               Nonce := (getAccount accounts b.Header.BeneficiaryID).Nonce }) ∧
    ((ApplyTransaction c6db c6blk c6tx).2 = none ∧
     findAccount (ApplyTransaction c6db c6blk c6tx).1 1 =
       some { AccountID := 1, Balance := 63, Nonce := 1 } ∧
     findAccount (ApplyTransaction c6db c6blk c6tx).1 2 =
       some { AccountID := 2, Balance := 30, Nonce := 0 } ∧
     findAccount (ApplyTransaction c6db c6blk c6tx).1 3 =
       some { AccountID := 3, Balance := 7, Nonce := 0 } ∧
     (ApplyTransaction (ApplyTransaction c6db c6blk c6tx).1 c6blk c6tx).2 =
       some TxError.nonceMismatch) := by
  refine ⟨fun accounts b tx hft hfb htb hsucc => ?_, by decide⟩
  simp only [ApplyTransaction] at hsucc ⊢
  split_ifs at hsucc ⊢ with h1 h2
  refine ⟨?_, ?_, ?_⟩ <;>
    simp [findAccount_storeAccount, getAccount_accountID, hft, hfb, htb,
      Ne.symm hft, Ne.symm hfb, Ne.symm htb]

theorem applyTransaction_success_spec_witness :
    findAccount (ApplyTransaction c6db c6blk c6tx).1 1 =
      some { AccountID := 1, Balance := 63, Nonce := 1 } ∧
    findAccount (ApplyTransaction c6db c6blk c6tx).1 2 =
      some { AccountID := 2, Balance := 30, Nonce := 0 } ∧
    findAccount (ApplyTransaction c6db c6blk c6tx).1 3 =
      some { AccountID := 3, Balance := 7, Nonce := 0 } :=
  applyTransaction_success_spec.1 c6db c6blk c6tx
    (by decide) (by decide) (by decide) (by decide)

/-- Claim C6 counterexample: when the sender is also the block beneficiary,
a successful ApplyTransaction does NOT set the sender nonce to the
transaction nonce, and the sender balance is not decreased by fee, value
and tip (it ends at 107 from 100): the final beneficiary write-back
overwrites the sender update. -/
theorem applyTransaction_alias_success_counterexample :
    aliasTx.FromID = aliasBlk.Header.BeneficiaryID ∧
    (ApplyTransaction aliasDb aliasBlk aliasTx).2 = none ∧
    aliasTx.Nonce = 1 ∧
    findAccount (ApplyTransaction aliasDb aliasBlk aliasTx).1 1 =
      some { AccountID := 1, Balance := 107, Nonce := 0 } := by decide

/-- Claim C7 (amended with pairwise distinctness of sender, receiver and
beneficiary): every failing ApplyTransaction still persists the clamped gas
fee, debited from the sender and credited to the beneficiary, leaving the
sender nonce, the receiver and every other account unchanged. -/
theorem applyTransaction_failure_spec :
    ∀ (accounts : List Account) (b : Block) (tx : BlockTx) (e : TxError),
      tx.FromID ≠ tx.ToID →
      tx.FromID ≠ b.Header.BeneficiaryID →
      tx.ToID ≠ b.Header.BeneficiaryID →
      (ApplyTransaction accounts b tx).2 = some e →
      findAccount (ApplyTransaction accounts b tx).1 tx.FromID =
        some { AccountID := tx.FromID,
               Balance := sub64 (getAccount accounts tx.FromID).Balance
                 (min (mul64 tx.GasPrice tx.GasUnits)
                   (getAccount accounts tx.FromID).Balance),
               Nonce := (getAccount accounts tx.FromID).Nonce } ∧
      findAccount (ApplyTransaction accounts b tx).1 b.Header.BeneficiaryID =
        some { AccountID := b.Header.BeneficiaryID,
               Balance := add64 (getAccount accounts b.Header.BeneficiaryID).Balance
                 (min (mul64 tx.GasPrice tx.GasUnits)
                   (getAccount accounts tx.FromID).Balance),
               Nonce := (getAccount accounts b.Header.BeneficiaryID).Nonce } ∧
      findAccount (ApplyTransaction accounts b tx).1 tx.ToID = findAccount accounts tx.ToID ∧
      (∀ k, k ≠ tx.FromID → k ≠ b.Header.BeneficiaryID →
        findAccount (ApplyTransaction accounts b tx).1 k = findAccount accounts k) := by
  intro accounts b tx e hft hfb htb hfail
  simp only [ApplyTransaction] at hfail ⊢
  split_ifs at hfail ⊢ with h1 h2
  · refine ⟨?_, ?_, ?_, fun k hk1 hk2 => ?_⟩ <;>
      simp [findAccount_storeAccount, getAccount_accountID, hft, hfb, htb,
        Ne.symm hft, Ne.symm hfb, Ne.symm htb, *]
  · refine ⟨?_, ?_, ?_, fun k hk1 hk2 => ?_⟩ <;>
      simp [findAccount_storeAccount, getAccount_accountID, hft, hfb, htb,
        Ne.symm hft, Ne.symm hfb, Ne.symm htb, *]

theorem applyTransaction_failure_spec_witness :
    findAccount (ApplyTransaction c7db c7blk c7tx).1 1 =
      some { AccountID := 1, Balance := 0, Nonce := 0 } ∧
    findAccount (ApplyTransaction c7db c7blk c7tx).1 3 =
      some { AccountID := 3, Balance := 1, Nonce := 0 } ∧
    findAccount (ApplyTransaction c7db c7blk c7tx).1 2 = findAccount c7db 2 := by
  have h := applyTransaction_failure_spec c7db c7blk c7tx TxError.insufficientFunds
    (by decide) (by decide) (by decide) (by decide)
  exact ⟨h.1, h.2.1, h.2.2.1⟩

/-- Claim C7 counterexample: when the sender is also the block beneficiary,
a nonce-mismatch failure leaves the sender CREDITED with the gas fee (102
from 100) rather than debited by it: the beneficiary write-back of the
stale copy overwrites the sender debit. -/
theorem applyTransaction_alias_failure_counterexample :
    alias7Tx.FromID = aliasBlk.Header.BeneficiaryID ∧
    (ApplyTransaction aliasDb aliasBlk alias7Tx).2 = some TxError.nonceMismatch ∧
    findAccount (ApplyTransaction aliasDb aliasBlk alias7Tx).1 1 =
      some { AccountID := 1, Balance := 102, Nonce := 0 } := by decide

end Blockchain

namespace Blockchain

theorem sortAccounts_eq_of_perm (l1 l2 : List Account) (hp : l1.Perm l2)
    (hnd : (l1.map Account.AccountID).Nodup) : sortAccounts l1 = sortAccounts l2 := by
  have hp1 : (sortAccounts l1).Perm l1 := List.perm_insertionSort accountLE l1
  have hp2 : (sortAccounts l2).Perm l2 := List.perm_insertionSort accountLE l2
  have hps : (sortAccounts l1).Perm (sortAccounts l2) := hp1.trans (hp.trans hp2.symm)
  have hs1 : List.Sorted accountLE (sortAccounts l1) := List.sorted_insertionSort accountLE l1
  have hs2 : List.Sorted accountLE (sortAccounts l2) := List.sorted_insertionSort accountLE l2
  have hnd1 : ((sortAccounts l1).map Account.AccountID).Nodup :=
    ((hp1.map Account.AccountID).nodup_iff).mpr hnd
  have hnd2 : ((sortAccounts l2).map Account.AccountID).Nodup :=
    ((hp2.map Account.AccountID).nodup_iff).mpr (((hp.map Account.AccountID).nodup_iff).mp hnd)
  have key : ∀ (s : List Account), List.Sorted accountLE s →
      (s.map Account.AccountID).Nodup →
      s.Pairwise (fun x y => x.AccountID < y.AccountID) := by
    intro s hs hn
    have hne : s.Pairwise (fun x y => x.AccountID ≠ y.AccountID) := List.pairwise_map.mp hn
    exact (hs.and hne).imp (fun h => Nat.lt_of_le_of_ne h.1 h.2)
  haveI : IsAntisymm Account (fun x y => x.AccountID < y.AccountID) :=
    ⟨fun a b h1 h2 => absurd h1 (Nat.lt_asymm h2)⟩
  exact List.eq_of_perm_of_sorted hps (key _ hs1 hnd1) (key _ hs2 hnd2)

/-- Claim C8: HashState is invariant under reordering of the accounts
snapshot: any two ledgers holding the same accounts (a permutation, with
distinct account identifiers) produce the identical state root, because the
accounts are sorted by identifier before hashing. -/
theorem hashState_perm_invariant (HA : List Account → List Char) (l1 l2 : List Account)
    (hp : l1.Perm l2) (hnd : (l1.map Account.AccountID).Nodup) :
    HashState HA l1 = HashState HA l2 :=
  congrArg HA (sortAccounts_eq_of_perm l1 l2 hp hnd)

theorem hashState_perm_invariant_witness :
    HashState c8HA [{ AccountID := 1, Balance := 5, Nonce := 0 },
        { AccountID := 2, Balance := 7, Nonce := 0 }] =
      HashState c8HA [{ AccountID := 2, Balance := 7, Nonce := 0 },
        { AccountID := 1, Balance := 5, Nonce := 0 }] :=
  hashState_perm_invariant c8HA _ _ (by decide) (by decide)

theorem sum_two_stores (m : List Account) (F B : Nat) (v1 vB : Account)
    (h1 : v1.AccountID = F) (hB : vB.AccountID = B) (hFB : F ≠ B)
    (hsum : (getAccount m F).Balance + (getAccount m B).Balance
      = v1.Balance + vB.Balance) :
    sumBalances (storeAccount (storeAccount m F v1) B vB) = sumBalances m := by
  have s1 := sumBalances_storeAccount m F v1
  have s2 := sumBalances_storeAccount (storeAccount m F v1) B vB
  have g1 : getAccount (storeAccount m F v1) B = getAccount m B := by
    rw [getAccount_storeAccount m F v1 h1, if_neg (Ne.symm hFB)]
  rw [g1] at s2
  omega

theorem sum_five_stores (m : List Account) (F T B : Nat) (v1 vB1 v2 vT vB2 : Account)
    (h1 : v1.AccountID = F) (hB1 : vB1.AccountID = B) (h2 : v2.AccountID = F)
    (hT : vT.AccountID = T) (hB2 : vB2.AccountID = B)
    (hFT : F ≠ T) (hFB : F ≠ B) (hTB : T ≠ B)
    (hsum : (getAccount m F).Balance + (getAccount m T).Balance + (getAccount m B).Balance
      = v2.Balance + vT.Balance + vB2.Balance) :
    sumBalances (storeAccount (storeAccount (storeAccount
        (storeAccount (storeAccount m F v1) B vB1) F v2) T vT) B vB2)
      = sumBalances m := by
  have s1 := sumBalances_storeAccount m F v1
  have s2 := sumBalances_storeAccount (storeAccount m F v1) B vB1
  have s3 := sumBalances_storeAccount (storeAccount (storeAccount m F v1) B vB1) F v2
  have s4 := sumBalances_storeAccount
    (storeAccount (storeAccount (storeAccount m F v1) B vB1) F v2) T vT
  have s5 := sumBalances_storeAccount
    (storeAccount (storeAccount (storeAccount (storeAccount m F v1) B vB1) F v2) T vT) B vB2
  have g1 : getAccount (storeAccount m F v1) B = getAccount m B := by
    rw [getAccount_storeAccount m F v1 h1, if_neg (Ne.symm hFB)]
  have g2 : getAccount (storeAccount (storeAccount m F v1) B vB1) F = v1 := by
    rw [getAccount_storeAccount _ B vB1 hB1, if_neg hFB,
      getAccount_storeAccount m F v1 h1, if_pos rfl]
  have g3 : getAccount (storeAccount (storeAccount (storeAccount m F v1) B vB1) F v2) T
      = getAccount m T := by
    rw [getAccount_storeAccount _ F v2 h2, if_neg (Ne.symm hFT),
      getAccount_storeAccount _ B vB1 hB1, if_neg hTB,
      getAccount_storeAccount m F v1 h1, if_neg (Ne.symm hFT)]
  have g4 : getAccount (storeAccount (storeAccount (storeAccount
      (storeAccount m F v1) B vB1) F v2) T vT) B = vB1 := by
    rw [getAccount_storeAccount _ T vT hT, if_neg (Ne.symm hTB),
      getAccount_storeAccount _ F v2 h2, if_neg (Ne.symm hFB),
      getAccount_storeAccount _ B vB1 hB1, if_pos rfl]
  rw [g1] at s2
  rw [g2] at s3
  rw [g3] at s4
  rw [g4] at s5
  omega

/-- Claim C10: with sender, receiver and beneficiary pairwise distinct and
no unsigned 64-bit overflow, ApplyTransaction preserves the total of all
balances whether it succeeds or fails; and the distinctness is necessary:
when the sender is the beneficiary a successful call changes the total
(100 becomes 117 in the concrete aliasing run). -/
theorem applyTransaction_sum_preserved :
    (∀ (accounts : List Account) (b : Block) (tx : BlockTx),
      tx.FromID ≠ tx.ToID →
      tx.FromID ≠ b.Header.BeneficiaryID →
      tx.ToID ≠ b.Header.BeneficiaryID →
      tx.Value + tx.Tip < two64 →
      (getAccount accounts tx.ToID).Balance + tx.Value < two64 →
      (getAccount accounts b.Header.BeneficiaryID).Balance
        + (getAccount accounts tx.FromID).Balance + tx.Tip < two64 →
      sumBalances (ApplyTransaction accounts b tx).1 = sumBalances accounts) ∧
    ((ApplyTransaction aliasDb aliasBlk aliasTx).2 = none ∧
     aliasTx.FromID = aliasBlk.Header.BeneficiaryID ∧
     sumBalances (ApplyTransaction aliasDb aliasBlk aliasTx).1 = 117 ∧
     sumBalances aliasDb = 100) := by
  refine ⟨fun accounts b tx hft hfb htb hvt ht hb => ?_, by decide⟩
  have hfee : min (mul64 tx.GasPrice tx.GasUnits) (getAccount accounts tx.FromID).Balance
      ≤ (getAccount accounts tx.FromID).Balance := Nat.min_le_right _ _
  have hfw : (getAccount accounts tx.FromID).Balance < two64 := by omega
  simp only [ApplyTransaction]
  split_ifs with h1 h2
  · dsimp only
    apply sum_two_stores
    · simp [getAccount_accountID]
    · simp [getAccount_accountID]
    · exact hfb
    · dsimp only
      have e1 : sub64 (getAccount accounts tx.FromID).Balance
          (min (mul64 tx.GasPrice tx.GasUnits) (getAccount accounts tx.FromID).Balance)
          = (getAccount accounts tx.FromID).Balance
            - min (mul64 tx.GasPrice tx.GasUnits) (getAccount accounts tx.FromID).Balance :=
        sub64_of_le hfee hfw
      have e2 : add64 (getAccount accounts b.Header.BeneficiaryID).Balance
          (min (mul64 tx.GasPrice tx.GasUnits) (getAccount accounts tx.FromID).Balance)
          = (getAccount accounts b.Header.BeneficiaryID).Balance
            + min (mul64 tx.GasPrice tx.GasUnits) (getAccount accounts tx.FromID).Balance :=
        add64_of_lt (by omega)
      rw [e1, e2]
      omega
  · dsimp only
    apply sum_two_stores
    · simp [getAccount_accountID]
    · simp [getAccount_accountID]
    · exact hfb
    · dsimp only
      have e1 : sub64 (getAccount accounts tx.FromID).Balance
          (min (mul64 tx.GasPrice tx.GasUnits) (getAccount accounts tx.FromID).Balance)
          = (getAccount accounts tx.FromID).Balance
            - min (mul64 tx.GasPrice tx.GasUnits) (getAccount accounts tx.FromID).Balance :=
        sub64_of_le hfee hfw
      have e2 : add64 (getAccount accounts b.Header.BeneficiaryID).Balance
          (min (mul64 tx.GasPrice tx.GasUnits) (getAccount accounts tx.FromID).Balance)
          = (getAccount accounts b.Header.BeneficiaryID).Balance
            + min (mul64 tx.GasPrice tx.GasUnits) (getAccount accounts tx.FromID).Balance :=
        add64_of_lt (by omega)
      rw [e1, e2]
      omega
  · dsimp only
    push_neg at h2
    have hvt2 : add64 tx.Value tx.Tip = tx.Value + tx.Tip := add64_of_lt hvt
    have e1 : sub64 (getAccount accounts tx.FromID).Balance
        (min (mul64 tx.GasPrice tx.GasUnits) (getAccount accounts tx.FromID).Balance)
        = (getAccount accounts tx.FromID).Balance
          - min (mul64 tx.GasPrice tx.GasUnits) (getAccount accounts tx.FromID).Balance :=
      sub64_of_le hfee hfw
    rw [hvt2, e1] at h2
    apply sum_five_stores
    · simp [getAccount_accountID]
    · simp [getAccount_accountID]
    · simp [getAccount_accountID]
    · simp [getAccount_accountID]
    · simp [getAccount_accountID]
    · exact hft
    · exact hfb
    · exact htb
    · dsimp only
      have e3 : sub64 ((getAccount accounts tx.FromID).Balance
            - min (mul64 tx.GasPrice tx.GasUnits) (getAccount accounts tx.FromID).Balance)
            tx.Value
          = (getAccount accounts tx.FromID).Balance
            - min (mul64 tx.GasPrice tx.GasUnits) (getAccount accounts tx.FromID).Balance
            - tx.Value :=
        sub64_of_le (by omega) (by omega)
      have e4 : sub64 ((getAccount accounts tx.FromID).Balance
            - min (mul64 tx.GasPrice tx.GasUnits) (getAccount accounts tx.FromID).Balance
            - tx.Value) tx.Tip
          = (getAccount accounts tx.FromID).Balance
            - min (mul64 tx.GasPrice tx.GasUnits) (getAccount accounts tx.FromID).Balance
            - tx.Value - tx.Tip :=
        sub64_of_le (by omega) (by omega)
      have e5 : add64 (getAccount accounts tx.ToID).Balance tx.Value
          = (getAccount accounts tx.ToID).Balance + tx.Value := add64_of_lt ht
      have e6 : add64 (getAccount accounts b.Header.BeneficiaryID).Balance
          (min (mul64 tx.GasPrice tx.GasUnits) (getAccount accounts tx.FromID).Balance)
          = (getAccount accounts b.Header.BeneficiaryID).Balance
            + min (mul64 tx.GasPrice tx.GasUnits) (getAccount accounts tx.FromID).Balance :=
        add64_of_lt (by omega)
      have e7 : add64 ((getAccount accounts b.Header.BeneficiaryID).Balance
            + min (mul64 tx.GasPrice tx.GasUnits) (getAccount accounts tx.FromID).Balance)
            tx.Tip
          = (getAccount accounts b.Header.BeneficiaryID).Balance
            + min (mul64 tx.GasPrice tx.GasUnits) (getAccount accounts tx.FromID).Balance
            + tx.Tip :=
        add64_of_lt (by omega)
      rw [e1, e3, e4, e5, e6, e7]
      omega

theorem applyTransaction_sum_preserved_witness :
    sumBalances (ApplyTransaction w10db w10blk w10tx).1 = sumBalances w10db :=
  applyTransaction_sum_preserved.1 w10db w10blk w10tx
    (by decide) (by decide) (by decide) (by decide) (by decide) (by decide)

end Blockchain
